import Mathlib

/-!
Verification of the habit-tracking bot repository (models.py, scheduler.py,
language_manager.py, bot.py) against its natural-language specification.

The database-backed persistence layer (`HabitTracker` in models.py) is
embedded as pure functions over an explicit `Db` state.  Operations that in
the source may raise (a psycopg2 connection or query failure inside the
`try` body) take an explicit `fail : Bool` parameter: `fail = true` models
the scenario in which the wrapped database operation raises, so control
transfers to the corresponding `except` branch of the source; `fail = false`
is the normal success path.  SQL `CURRENT_TIMESTAMP` / `CURRENT_DATE` /
`date.today()` are modelled by a single logical clock carried in the state.
-/

set_option autoImplicit false

namespace Tb

/-- A row of the `habit_entries` table (models.py `_create_tables`):
`id SERIAL, user_id BIGINT, entry_date DATE DEFAULT CURRENT_DATE,
created_at TIMESTAMP DEFAULT CURRENT_TIMESTAMP, notes TEXT`.
Dates are day numbers, timestamps are ticks of the logical clock. -/
structure EntryRow where
  id : Nat
  user_id : Nat
  entry_date : Int
  created_at : Nat
  notes : Option String
  deriving DecidableEq

/-- A row of the `users` table: `user_id BIGINT PRIMARY KEY,
language VARCHAR(10), created_at, updated_at`. -/
structure UserRow where
  user_id : Nat
  language : String
  updated_at : Nat
  deriving DecidableEq

/-- The database state seen by `HabitTracker`: the two tables, the next
`SERIAL` id, a logical timestamp clock and the current date. -/
structure Db where
  users : List UserRow
  entries : List EntryRow
  nextId : Nat
  clock : Nat
  today : Int
  deriving DecidableEq

/-- `SELECT language FROM users WHERE user_id = %s` (models.py line 183).
`user_id` is the primary key, so the first matching row is the row. -/
def selectLanguage (db : Db) (uid : Nat) : Option String :=
  (db.users.find? (fun r => r.user_id == uid)).map (fun r => r.language)

/-- The upsert `INSERT INTO users ... ON CONFLICT (user_id) DO UPDATE SET
language = EXCLUDED.language, updated_at = CURRENT_TIMESTAMP`
(models.py lines 202-209). -/
def upsertUser (db : Db) (uid : Nat) (lang : String) : Db :=
  if db.users.any (fun r => r.user_id == uid) then
    { db with
      users := db.users.map
        (fun r => if r.user_id == uid then
          { r with language := lang, updated_at := db.clock } else r)
      clock := db.clock + 1 }
  else
    { db with
      users := db.users ++ [⟨uid, lang, db.clock⟩]
      clock := db.clock + 1 }

/-- `HabitTracker.set_user_language` (models.py lines 196-223): upsert and
return the persisted language; on a raised storage error, roll back and
return the requested language as fallback (lines 216-223). -/
def set_user_language (fail : Bool) (db : Db) (uid : Nat) (lang : String) :
    String × Db :=
  if fail then (lang, db)
  else (lang, upsertUser db uid lang)

/-- `HabitTracker.get_user_language` (models.py lines 177-194): select the
stored language; when no row exists, create one via `set_user_language`
with default `'english'`; when the lookup raises, return `'english'`
(line 194).  `set_user_language` itself never raises (it has its own
catch-all), so `failSet` only selects its internal fallback branch. -/
def get_user_language (failGet failSet : Bool) (db : Db) (uid : Nat) :
    String × Db :=
  if failGet then ("english", db)
  else
    match selectLanguage db uid with
    | some l => (l, db)
    | none => set_user_language failSet db uid "english"

/-- `INSERT INTO habit_entries (user_id, notes) VALUES (%s, %s) RETURNING
id, entry_date, created_at` (models.py lines 90-94): the server assigns
the serial id, the current date and the current timestamp. -/
def insertEntry (db : Db) (uid : Nat) (notes : Option String) :
    EntryRow × Db :=
  let row : EntryRow := ⟨db.nextId, uid, db.today, db.clock, notes⟩
  (row,
   { db with
     entries := db.entries ++ [row]
     nextId := db.nextId + 1
     clock := db.clock + 1 })

/-- `HabitTracker.add_entry` (models.py lines 85-108): insert a row for
today and return it; on a storage error, roll back and re-raise
(modelled as `Except.error`). -/
def add_entry (fail : Bool) (db : Db) (uid : Nat) (notes : Option String) :
    Except String (EntryRow × Db) :=
  if fail then Except.error "StorageError"
  else Except.ok (insertEntry db uid notes)

/-- Comparison used by `ORDER BY entry_date DESC, created_at DESC`:
`entryLe a b` holds when `a` sorts no later than `b`. -/
def entryLe (a b : EntryRow) : Bool :=
  (a.entry_date < b.entry_date) ||
    (a.entry_date == b.entry_date && a.created_at ≤ b.created_at)

/-- The row produced by `SELECT ... WHERE user_id = %s ORDER BY entry_date
DESC, created_at DESC LIMIT 1` (models.py lines 115-121): a maximum of the
user's rows in the `(entry_date, created_at)` order. -/
def sqlLastEntry (db : Db) (uid : Nat) : Option EntryRow :=
  (db.entries.filter (fun r => r.user_id == uid)).foldl
    (fun acc r =>
      match acc with
      | none => some r
      | some b => if entryLe b r then some r else some b)
    none

/-- `HabitTracker.get_last_entry` (models.py lines 110-126): run the query;
on a storage error, catch it and return `None` (line 126). -/
def get_last_entry (fail : Bool) (db : Db) (uid : Nat) : Option EntryRow :=
  if fail then none else sqlLastEntry db uid

/-- `HabitTracker.get_total_count` (models.py lines 128-143):
`SELECT COUNT(*) ... WHERE user_id = %s`; on a storage error, catch it and
return `0` (line 143). -/
def get_total_count (fail : Bool) (db : Db) (uid : Nat) : Nat :=
  if fail then 0
  else (db.entries.filter (fun r => r.user_id == uid)).length

/-- `HabitTracker.get_days_since_last` (models.py lines 145-159):
`(date.today() - last_entry.entry_date).days`, or `None` when there is no
entry or the underlying lookup failed (the catch-all on line 159 also
returns `None`, and `failLast` already covers the only fallible step). -/
def get_days_since_last (failLast : Bool) (db : Db) (uid : Nat) :
    Option Int :=
  match get_last_entry failLast db uid with
  | none => none
  | some e => some (db.today - e.entry_date)

/-- The dict built by `HabitTracker.get_user_stats` (models.py
lines 168-172). -/
structure UserStats where
  last_entry : Option EntryRow
  total_count : Nat
  days_since_last : Option Int
  deriving DecidableEq

/-- `HabitTracker.get_user_stats` (models.py lines 161-175): compose the
three sub-queries.  Each sub-query catches its own storage errors and
returns a default (`None` / `0` / `None`), so the body of the outer `try`
never raises and the function always returns the composed dict; the
`except` branch on lines 173-175 (returning `None`) is unreachable from a
sub-query failure.  `f1`, `f2`, `f3` are the independent fault flags for
the three sub-queries, in the order the source issues them. -/
def get_user_stats (f1 f2 f3 : Bool) (db : Db) (uid : Nat) :
    Option UserStats :=
  some ⟨get_last_entry f1 db uid, get_total_count f2 db uid,
        get_days_since_last f3 db uid⟩

/-!
Scheduler (scheduler.py).  One firing of the daily job is
`MessageScheduler._send_scheduled_message` (lines 37-64).  Its observable
behaviour is recorded as a trace of events: a job invocation, a
`time.sleep(retry_delay)` between attempts, an outbound message sent by the
job body itself, and the scheduler's final failure message sent through
`self.bot.send_message`.  A job is a function from the (1-based) attempt
number to the pair of outbound messages that attempt sends and the error it
raises (`none` means the attempt returns normally).
-/

/-- Observable events of one scheduled firing. -/
inductive SchedEv where
  | invoke (attempt : Nat)
  | sleepRetry (seconds : Nat)
  | sent (msg : String)
  | notify (msg : String)
  deriving DecidableEq

/-- The failure message of scheduler.py line 59:
`f"❌ Failed to send daily message after {max_attempts} attempts.\nLast
error: {str(e)}"`. -/
def failNotice (maxAttempts : Nat) (err : String) : String :=
  "❌ Failed to send daily message after " ++ toString maxAttempts ++
    " attempts.\nLast error: " ++ err

/-- The `while attempt <= max_attempts` loop of `_send_scheduled_message`,
entered at a given attempt number.  On success the loop returns at once
(line 47); on failure with attempts left it sleeps `retry_delay` seconds
and retries (lines 52-54); on failure at the last attempt it sends one
failure message and the loop then exits (lines 55-64).  The loop body runs
at most `maxAttempts` times because `attempt` increases by one per
iteration, so the structural `fuel` counter never runs out when it starts
at `maxAttempts + 1 - attempt` or more; it only makes the recursion
structural and is not part of the source's behaviour. -/
def sendLoop (jb : Nat → List String × Option String)
    (retryDelay maxAttempts : Nat) : Nat → Nat → List SchedEv
  | 0, _ => []
  | fuel + 1, attempt =>
    if attempt ≤ maxAttempts then
      SchedEv.invoke attempt :: (jb attempt).1.map SchedEv.sent ++
        (match (jb attempt).2 with
         | none => []
         | some e =>
           if attempt < maxAttempts then
             SchedEv.sleepRetry retryDelay ::
               sendLoop jb retryDelay maxAttempts fuel (attempt + 1)
           else
             [SchedEv.notify (failNotice maxAttempts e)])
    else []

/-- `MessageScheduler._send_scheduled_message` (scheduler.py lines 37-64):
the loop starts at `attempt = 1` with `max_attempts =
config.retry_attempts`, so `retryAttempts` units of fuel cover every
iteration the loop can perform. -/
def send_scheduled_message (jb : Nat → List String × Option String)
    (retryAttempts retryDelay : Nat) : List SchedEv :=
  sendLoop jb retryDelay retryAttempts retryAttempts 1

/-- A job that raises or returns without sending anything itself. -/
def pureJob (job : Nat → Option String) :
    Nat → List String × Option String :=
  fun k => ([], job k)

/-- Number of job invocations in a trace. -/
def invokeCount (t : List SchedEv) : Nat :=
  (t.filter (fun e =>
    match e with
    | SchedEv.invoke _ => true
    | _ => false)).length

/-- The retry sleeps of a trace, in order. -/
def retrySleepList (t : List SchedEv) : List Nat :=
  t.filterMap (fun e =>
    match e with
    | SchedEv.sleepRetry d => some d
    | _ => none)

/-- The scheduler's failure messages in a trace, in order. -/
def notices (t : List SchedEv) : List String :=
  t.filterMap (fun e =>
    match e with
    | SchedEv.notify m => some m
    | _ => none)

/-- Every outbound message of a trace (sent by the job body or by the
scheduler's failure path), in order. -/
def outbound (t : List SchedEv) : List String :=
  t.filterMap (fun e =>
    match e with
    | SchedEv.sent m => some m
    | SchedEv.notify m => some m
    | _ => none)

/-- `TelegramBot.send_daily_message` (bot.py lines 306-374), as the job the
scheduler actually runs.  The message body (random daily text, optional
date line and awareness text) is abstracted as the parameter `msg`, since
`get_daily_message` draws it with `random.choice`.  `sendOk` is the outcome
of the `self.send_message(message)` call on line 365; when it raises, the
`except` branch (lines 367-374) builds
`f"❌ Failed to send scheduled message: {str(e)}"` and tries to send it,
with outcome `errSendOk`; every exception is swallowed, so the function
never raises to its caller. -/
def send_daily_message (msg : String) (sendOk errSendOk : Bool)
    (e : String) : List String × Option String :=
  if sendOk then ([msg], none)
  else if errSendOk then
    (["❌ Failed to send scheduled message: " ++ e], none)
  else ([], none)

/-!
Habit classifier (language_manager.py).  Texts are lists of characters;
`str.lower()` is modelled on the Latin letters the English patterns use.
The language bundles loaded from `english.json` / `arabic.json` are data
files outside the source tree, so the `LanguageManager` state carries the
loaded map abstractly: for each language name, whether a bundle is loaded
and, if so, its `habit_patterns` entry (if present).
-/

/-- ASCII case folding, the fragment of Python `str.lower()` relevant to
the Latin-script patterns. -/
def lowerChar (c : Char) : Char :=
  if 'A' ≤ c ∧ c ≤ 'Z' then Char.ofNat (c.toNat + 32) else c

/-- `text.lower()` (language_manager.py line 88). -/
def lowerStr (s : List Char) : List Char := s.map lowerChar

/-- Does the text start with the pattern? -/
def begMatch : List Char → List Char → Bool
  | [], _ => true
  | _ :: _, [] => false
  | a :: p, b :: s => a == b && begMatch p s

/-- Python's `pattern in text` substring test: the pattern occurs
contiguously somewhere in the text. -/
def occursIn (pat : List Char) : List Char → Bool
  | [] => begMatch pat []
  | c :: rest => begMatch pat (c :: rest) || occursIn pat rest

/-- The hard-coded English pattern list (language_manager.py
lines 74-79). -/
def englishPatterns : List String :=
  ["i did it", "did it", "slipped up", "had the habit",
   "relapsed", "fell back", "messed up", "gave in",
   "happened again", "went back to it", "did the thing",
   "broke my streak", "couldn\x27t resist", "lost control"]

/-- A loaded language bundle, keeping only the field the classifier reads:
the `habit_patterns` key, when the JSON object has one. -/
structure LangData where
  habit_patterns : Option (List String)

/-- The `LanguageManager` state: for each language name, the loaded bundle
(if `load_languages` put one in `self.languages`). -/
structure LanguageManager where
  languages : String → Option LangData

/-- `LanguageManager.get_habit_patterns` (language_manager.py lines 67-82):
the `'arabic'` branch reads `self.languages['arabic'].get('habit_patterns',
[])` — a missing `'arabic'` bundle raises `KeyError`, caught on lines 80-82
with the two-pattern fallback; every other language gets the hard-coded
English list. -/
def get_habit_patterns (lm : LanguageManager) (language : String) :
    List String :=
  if language = "arabic" then
    match lm.languages "arabic" with
    | none => ["did it", "slipped up"]
    | some d => d.habit_patterns.getD []
  else englishPatterns

/-- `LanguageManager.is_habit_message` (language_manager.py lines 84-92):
lower-case the text and test whether any pattern of the language's list is
a substring. -/
def is_habit_message (lm : LanguageManager) (text language : String) :
    Bool :=
  (get_habit_patterns lm language).any
    (fun p => occursIn p.toList (lowerStr text.toList))

/-!
`MessageScheduler.get_next_run_time` (scheduler.py lines 104-127).  Times
are wall-clock instants `⟨day, sec⟩` in some timezone: a calendar day
number and a second-of-day.  `datetime.now(tz)` for a known non-UTC zone is
the UTC instant shifted by that zone's current offset; `pytz.timezone`
raises for unknown names.  `now.replace(hour=h, minute=m, second=0,
microsecond=0)` keeps the day and raises `ValueError` unless
`0 ≤ h ≤ 23` and `0 ≤ m ≤ 59`; comparing that multiple-of-a-minute instant
against `now` at second resolution agrees with the microsecond-resolution
comparison of the source.  The catch-all on lines 126-127 turns every
raised exception into the string
`f"Error calculating next run time: {e}"`.
-/

/-- A wall-clock instant: calendar day number and second of day. -/
structure WallTime where
  day : Int
  sec : Nat
  deriving DecidableEq

/-- Total seconds of a wall-clock instant, for comparisons. -/
def wallAbs (t : WallTime) : Int := t.day * 86400 + t.sec

/-- The local time read by `datetime.now(tz)` for a zone at `offMin`
minutes from UTC. -/
def shiftTime (t : WallTime) (offMin : Int) : WallTime :=
  let a : Int := t.day * 86400 + (t.sec : Int) + offMin * 60
  ⟨a / 86400, (a % 86400).toNat⟩

/-- `datetime.now(tz)` for the named zone: scheduler.py line 112 uses
`pytz.UTC` directly for `'UTC'` and `pytz.timezone(timezone_str)` (which
raises on unknown names, modelled as `none`) otherwise. -/
def nowInZone (nowUTC : WallTime) (tzdb : String → Option Int)
    (tzName : String) : Option WallTime :=
  if tzName = "UTC" then some nowUTC
  else (tzdb tzName).map (shiftTime nowUTC)

/-- Python whitespace accepted by `int()`, ASCII fragment. -/
def isPyWs (c : Char) : Bool :=
  c == ' ' || c == '\t' || c == '\n' || c == '\x0d' || c == '\x0b' ||
    c == '\x0c'

/-- Strip leading and trailing whitespace. -/
def stripWs (s : List Char) : List Char :=
  ((s.dropWhile isPyWs).reverse.dropWhile isPyWs).reverse

/-- Digit chain after the first digit: ASCII digits, with single
underscores allowed only between digits (Python numeric literal rule
enforced by `int()`). -/
def digitChain : List Char → Nat → Option Nat
  | [], acc => some acc
  | '_' :: rest, acc =>
    match rest with
    | [] => none
    | c :: rest' =>
      if c.isDigit then digitChain rest' (acc * 10 + (c.toNat - 48))
      else none
  | c :: rest, acc =>
    if c.isDigit then digitChain rest (acc * 10 + (c.toNat - 48))
    else none

/-- Python `int(s)` on a string, ASCII fragment: optional surrounding
whitespace, optional sign, then a digit chain. -/
def pyInt (s : List Char) : Option Int :=
  match stripWs s with
  | [] => none
  | c :: rest =>
    let signed : Int × List Char :=
      if c = '+' then (1, rest)
      else if c = '-' then (-1, rest)
      else (1, c :: rest)
    match signed.2 with
    | [] => none
    | c0 :: rest0 =>
      if c0.isDigit then
        (digitChain rest0 (c0.toNat - 48)).map (fun v => signed.1 * v)
      else none

/-- `s.split(':')`, keeping empty pieces, as Python does. -/
def splitColon : List Char → List (List Char)
  | [] => [[]]
  | c :: rest =>
    if c = ':' then [] :: splitColon rest
    else
      match splitColon rest with
      | [] => [[c]]
      | p :: ps => (c :: p) :: ps

/-- `hour, minute = map(int, schedule_time.split(':'))` (scheduler.py
line 109): both the unpack of anything but exactly two pieces and a failed
`int()` raise `ValueError`, modelled as `none`. -/
def parseHM (s : List Char) : Option (Int × Int) :=
  match splitColon s with
  | [a, b] =>
    match pyInt a, pyInt b with
    | some h, some m => some (h, m)
    | _, _ => none
  | _ => none

/-- Result of `get_next_run_time`: either the computed next run instant
(the source renders it with `strftime`) or the error string built by the
catch-all. -/
inductive RunResult where
  | ok (t : WallTime)
  | err (msg : String)
  deriving DecidableEq

/-- Start of every error string of scheduler.py line 127. -/
def errHead : String := "Error calculating next run time: "

/-- Lines 118-124 of scheduler.py on an in-range hour and minute: replace
the time of day of `now` (seconds zeroed), and push to the next day when
that instant is not strictly in the future. -/
def computeNext (h m : Nat) (now : WallTime) : WallTime :=
  let fireSec := h * 3600 + m * 60
  if fireSec ≤ now.sec then ⟨now.day + 1, fireSec⟩ else ⟨now.day, fireSec⟩

/-- `MessageScheduler.get_next_run_time` (scheduler.py lines 104-127),
over an environment giving the current UTC instant and the timezone
database.  Failures of the parse, the timezone lookup and the `replace`
range check are caught in source order by the catch-all and become
`errHead`-prefixed strings. -/
def get_next_run_time (nowUTC : WallTime) (tzdb : String → Option Int)
    (schedule_time timezone_str : String) : RunResult :=
  match parseHM schedule_time.toList with
  | none =>
    RunResult.err (errHead ++ "invalid literal for int() with base 10")
  | some (h, m) =>
    match nowInZone nowUTC tzdb timezone_str with
    | none =>
      RunResult.err (errHead ++ ("unknown timezone " ++ timezone_str))
    | some now =>
      if 0 ≤ h ∧ h ≤ 23 ∧ 0 ≤ m ∧ m ≤ 59 then
        RunResult.ok (computeNext h.toNat m.toNat now)
      else
        RunResult.err (errHead ++ "hour or minute out of range")

/-- `N` successful `add_entry` calls in a row (the error branch is
unreachable with `fail = false` and kept only to match `add_entry`'s
type). -/
def recordN (db : Db) (uid : Nat) : Nat → Db
  | 0 => db
  | Nat.succ n =>
    match add_entry false db uid none with
    | Except.ok p => recordN p.2 uid n
    | Except.error _ => db

/-! Supporting lemmas about the persistence layer. -/

theorem selectLanguage_upsert_aux (uid : Nat) (lang : String) (ts : Nat)
    (l : List UserRow) (h : l.any (fun r => r.user_id == uid) = true) :
    ((l.map (fun r => if r.user_id == uid then
        { r with language := lang, updated_at := ts } else r)).find?
          (fun r => r.user_id == uid)).map (fun r => r.language) =
      some lang := by
  induction l with
  | nil => simp at h
  | cons r l ih =>
    by_cases hr : (r.user_id == uid) = true
    · simp [hr, List.find?]
    · simp only [List.any_cons, Bool.or_eq_true] at h
      have h' : (l.any fun r => r.user_id == uid) = true := by
        rcases h with h | h
        · exact absurd h hr
        · exact h
      simp only [List.map_cons]
      rw [List.find?_cons_of_neg _ (by simp [hr])]
      exact ih h'

theorem selectLanguage_upsert (db : Db) (uid : Nat) (lang : String) :
    selectLanguage (upsertUser db uid lang) uid = some lang := by
  unfold upsertUser selectLanguage
  by_cases hany : db.users.any (fun r => r.user_id == uid) = true
  · simp only [hany, if_pos]
    exact selectLanguage_upsert_aux uid lang db.clock db.users hany
  · simp only [hany, if_neg, Bool.not_eq_true]
    have hnone : db.users.find? (fun r => r.user_id == uid) = none := by
      rw [List.find?_eq_none]
      intro x hx
      intro hcontra
      exact hany (List.any_eq_true.mpr ⟨x, hx, hcontra⟩)
    simp [List.find?_append, hnone, List.find?]

theorem count_after_insert (db : Db) (uid : Nat) (notes : Option String) :
    ((insertEntry db uid notes).2.entries.filter
      (fun r => r.user_id == uid)).length =
    (db.entries.filter (fun r => r.user_id == uid)).length + 1 := by
  simp [insertEntry, List.filter_append]

theorem recordN_count (uid : Nat) :
    ∀ (N : Nat) (db : Db),
      get_total_count false (recordN db uid N) uid =
        (db.entries.filter (fun r => r.user_id == uid)).length + N := by
  intro N
  induction N with
  | zero => intro db; simp [recordN, get_total_count]
  | succ n ih =>
    intro db
    show get_total_count false (recordN (insertEntry db uid none).2 uid n)
      uid = _
    rw [ih]
    have := count_after_insert db uid none
    omega

/-! Claims C1, C6, C7, C8, C9 on the persistence layer. -/

/-- Claim C1 counterexample.  In a store holding one entry (dated today)
for user 1, a storage failure of the `get_last_entry` sub-query alone
(`f1 = true`, the other two sub-queries succeed) makes `get_user_stats`
return a partial struct — `last_entry` defaulted to `none` while
`total_count = 1` and `days_since_last = some 0` come from the successful
sub-queries — rather than `none` for the whole struct as the claim
demands. -/
theorem c1_user_stats_partial_counterexample :
    get_user_stats true false false
        ⟨[], [⟨1, 1, 100, 0, none⟩], 2, 1, 100⟩ 1 =
      some ⟨none, 1, some 0⟩ ∧
    get_user_stats true false false
        ⟨[], [⟨1, 1, 100, 0, none⟩], 2, 1, 100⟩ 1 ≠ none := by
  exact ⟨by decide, by decide⟩

/-- Claim C1, amended: a sub-query failure never makes `get_user_stats`
return `none` for the whole struct.  Each sub-query catches its own
storage error and contributes its fallback (`none` for `last_entry`, `0`
for `total_count`, `none` for `days_since_last`), so the struct is always
returned, and fields of successful sub-queries keep their true values even
when other sub-queries failed (partial structs do occur). -/
theorem c1_user_stats_never_none (f1 f2 f3 : Bool) (db : Db) (uid : Nat) :
    get_user_stats f1 f2 f3 db uid =
      some ⟨if f1 then none else sqlLastEntry db uid,
            if f2 then 0
              else (db.entries.filter (fun r => r.user_id == uid)).length,
            if f3 then none
              else (sqlLastEntry db uid).map
                (fun e => db.today - e.entry_date)⟩ := by
  cases f1 <;> cases f2 <;> cases f3 <;>
    simp [get_user_stats, get_last_entry, get_total_count,
      get_days_since_last] <;>
    cases h : sqlLastEntry db uid <;> simp [h]

/-- Claim C6: for a brand-new user id (no User row), two consecutive
`get_user_language` calls on the success path both return `"english"`,
the second call leaves the store unchanged, and after the first call the
store holds exactly one User row for that id. -/
theorem c6_get_user_language_idempotent (db : Db) (uid : Nat)
    (hnew : ∀ r ∈ db.users, r.user_id ≠ uid) :
    (get_user_language false false db uid).1 = "english" ∧
    (get_user_language false false
        (get_user_language false false db uid).2 uid).1 = "english" ∧
    (get_user_language false false
        (get_user_language false false db uid).2 uid).2 =
      (get_user_language false false db uid).2 ∧
    ((get_user_language false false db uid).2.users.filter
        (fun r => r.user_id == uid)).length = 1 := by
  have hpred : ∀ r ∈ db.users, ¬((fun r => r.user_id == uid) r = true) := by
    intro r hr hc
    exact hnew r hr (by simpa using hc)
  have hfind : db.users.find? (fun r => r.user_id == uid) = none :=
    List.find?_eq_none.mpr hpred
  have hany : db.users.any (fun r => r.user_id == uid) = false := by
    rw [← Bool.not_eq_true, List.any_eq_true]
    rintro ⟨x, hx, hpx⟩
    exact hpred x hx hpx
  have hsel : selectLanguage db uid = none := by
    simp [selectLanguage, hfind]
  have h1 : get_user_language false false db uid =
      ("english", upsertUser db uid "english") := by
    simp [get_user_language, hsel, set_user_language]
  have hup : upsertUser db uid "english" =
      { db with
        users := db.users ++ [⟨uid, "english", db.clock⟩]
        clock := db.clock + 1 } := by
    simp [upsertUser, hany]
  have hsel1 : selectLanguage (upsertUser db uid "english") uid =
      some "english" := selectLanguage_upsert db uid "english"
  refine ⟨by rw [h1], ?_, ?_, ?_⟩
  · rw [h1]
    simp [get_user_language, hsel1]
  · rw [h1]
    simp [get_user_language, hsel1]
  · rw [h1, hup]
    have hfilter : db.users.filter (fun r => r.user_id == uid) = [] := by
      rw [List.filter_eq_nil_iff]
      exact hpred
    simp [List.filter_append, hfilter]

/-- Claim C7: on the success path, `set_user_language` followed by
`get_user_language` returns exactly the language just set, for any user
id and language and whether or not a User row existed before. -/
theorem c7_set_get_language_round_trip (db : Db) (uid : Nat)
    (lang : String) :
    (get_user_language false false
        (set_user_language false db uid lang).2 uid).1 = lang := by
  have hsel : selectLanguage (set_user_language false db uid lang).2 uid =
      some lang := by
    simpa [set_user_language] using selectLanguage_upsert db uid lang
  simp [get_user_language, hsel]

/-- Claim C8: starting from a store with no entries for user `uid`, after
`N` successful `add_entry` calls `get_total_count` returns `N`; and
whenever the most recent entry's date equals today, `get_days_since_last`
returns `0`. -/
theorem c8_count_and_days_since (db : Db) (uid : Nat) (N : Nat)
    (h0 : db.entries.filter (fun r => r.user_id == uid) = []) :
    get_total_count false (recordN db uid N) uid = N ∧
    (∀ (db' : Db) (e : EntryRow), get_last_entry false db' uid = some e →
      e.entry_date = db'.today →
      get_days_since_last false db' uid = some 0) := by
  constructor
  · rw [recordN_count uid N db, h0]
    simp
  · intro db' e hlast hdate
    simp [get_days_since_last, hlast, hdate]

/-- Claim C8 witness at a concrete store. -/
theorem c8_count_and_days_since_witness :
    get_total_count false (recordN ⟨[], [], 1, 0, 100⟩ 3 2) 3 = 2 :=
  (c8_count_and_days_since ⟨[], [], 1, 0, 100⟩ 3 2 (by rfl)).1

/-- Claim C6 witness at a concrete empty store. -/
theorem c6_get_user_language_idempotent_witness :
    (get_user_language false false ⟨[], [], 1, 0, 100⟩ 7).1 = "english" ∧
    (get_user_language false false
        (get_user_language false false ⟨[], [], 1, 0, 100⟩ 7).2 7).1 =
      "english" ∧
    (get_user_language false false
        (get_user_language false false ⟨[], [], 1, 0, 100⟩ 7).2 7).2 =
      (get_user_language false false ⟨[], [], 1, 0, 100⟩ 7).2 ∧
    ((get_user_language false false ⟨[], [], 1, 0, 100⟩ 7).2.users.filter
        (fun r => r.user_id == 7)).length = 1 :=
  c6_get_user_language_idempotent ⟨[], [], 1, 0, 100⟩ 7
    (by intro r hr; simp at hr)

/-- Claim C9: when the language lookup raises, `get_user_language`
swallows the error and returns `"english"` with the store untouched, even
though the stored preference is `"arabic"`. -/
theorem c9_language_lookup_failure_defaults (db : Db) (uid : Nat)
    (fs : Bool) (_h : selectLanguage db uid = some "arabic") :
    (get_user_language true fs db uid).1 = "english" ∧
    (get_user_language true fs db uid).2 = db :=
  ⟨rfl, rfl⟩

/-- Claim C9 witness: user 5 has stored preference `"arabic"`, yet a
failing lookup reports `"english"`. -/
theorem c9_language_lookup_failure_defaults_witness :
    (get_user_language true false
        ⟨[⟨5, "arabic", 0⟩], [], 1, 1, 0⟩ 5).1 = "english" ∧
    (get_user_language true false
        ⟨[⟨5, "arabic", 0⟩], [], 1, 1, 0⟩ 5).2 =
      ⟨[⟨5, "arabic", 0⟩], [], 1, 1, 0⟩ :=
  c9_language_lookup_failure_defaults ⟨[⟨5, "arabic", 0⟩], [], 1, 1, 0⟩ 5
    false (by rfl)

/-! Supporting lemmas about the retry loop. -/

/-- The trace of `m` consecutive failed attempts starting at attempt `a`,
each a job invocation followed by one retry sleep. -/
def retryBlocks (d : Nat) : Nat → Nat → List SchedEv
  | _, 0 => []
  | a, m + 1 =>
    SchedEv.invoke a :: SchedEv.sleepRetry d :: retryBlocks d (a + 1) m

theorem invokeCount_append (t1 t2 : List SchedEv) :
    invokeCount (t1 ++ t2) = invokeCount t1 + invokeCount t2 := by
  simp [invokeCount, List.filter_append]

theorem notices_append (t1 t2 : List SchedEv) :
    notices (t1 ++ t2) = notices t1 ++ notices t2 := by
  simp [notices, List.filterMap_append]

theorem retrySleepList_append (t1 t2 : List SchedEv) :
    retrySleepList (t1 ++ t2) = retrySleepList t1 ++ retrySleepList t2 := by
  simp [retrySleepList, List.filterMap_append]

theorem retryBlocks_invokeCount (d : Nat) :
    ∀ (m a : Nat), invokeCount (retryBlocks d a m) = m := by
  intro m
  induction m with
  | zero => intro a; simp [retryBlocks, invokeCount]
  | succ m ih =>
    intro a
    simp [retryBlocks, invokeCount] at ih ⊢
    exact ih (a + 1)

theorem retryBlocks_sleeps (d : Nat) :
    ∀ (m a : Nat), retrySleepList (retryBlocks d a m) = List.replicate m d := by
  intro m
  induction m with
  | zero => intro a; simp [retryBlocks, retrySleepList]
  | succ m ih =>
    intro a
    simp [retryBlocks, retrySleepList, List.replicate] at ih ⊢
    exact ih (a + 1)

theorem retryBlocks_notices (d : Nat) :
    ∀ (m a : Nat), notices (retryBlocks d a m) = [] := by
  intro m
  induction m with
  | zero => intro a; simp [retryBlocks, notices]
  | succ m ih =>
    intro a
    simp [retryBlocks, notices] at ih ⊢
    exact ih (a + 1)

/-- Trace of the loop when every attempt from `a` to the last one raises:
`m` invoke/sleep blocks, then the final invocation and the single failure
message built from the last error. -/
theorem sendLoop_all_fail (job : Nat → Option String) (d n : Nat)
    (e : String) (he : job n = some e) :
    ∀ (m a fuel : Nat), 1 ≤ a → a + m = n → n + 1 - a ≤ fuel →
      (∀ k, a ≤ k → k ≤ n → job k ≠ none) →
      sendLoop (pureJob job) d n fuel a =
        retryBlocks d a m ++
          [SchedEv.invoke n, SchedEv.notify (failNotice n e)] := by
  intro m
  induction m with
  | zero =>
    intro a fuel ha ham hfuel _hfail
    have han : a = n := by omega
    subst han
    obtain ⟨f, rfl⟩ : ∃ f, fuel = f + 1 := ⟨fuel - 1, by omega⟩
    simp [sendLoop, pureJob, he, retryBlocks]
  | succ m ih =>
    intro a fuel ha ham hfuel hfail
    have halt : a < n := by omega
    obtain ⟨f, rfl⟩ : ∃ f, fuel = f + 1 := ⟨fuel - 1, by omega⟩
    obtain ⟨ea, hea⟩ : ∃ x, job a = some x := by
      cases hja : job a with
      | none => exact absurd hja (hfail a le_rfl (by omega))
      | some x => exact ⟨x, rfl⟩
    have hrec := ih (a + 1) f (by omega) (by omega) (by omega)
      (fun k hk1 hk2 => hfail k (by omega) hk2)
    simp [sendLoop, pureJob, hea, halt, le_of_lt halt, retryBlocks, hrec]

/-- Trace of the loop when the first non-raising attempt at or after `a`
is attempt `K`: failed blocks up to `K - 1`, then the successful
invocation and nothing else. -/
theorem sendLoop_first_success (job : Nat → Option String) (d n K : Nat)
    (hKn : K ≤ n) (hK : job K = none) :
    ∀ (m a fuel : Nat), a + m = K → n + 1 - a ≤ fuel →
      (∀ k, a ≤ k → k < K → job k ≠ none) →
      sendLoop (pureJob job) d n fuel a =
        retryBlocks d a m ++ [SchedEv.invoke K] := by
  intro m
  induction m with
  | zero =>
    intro a fuel ham hfuel _hfail
    have han : a = K := by omega
    subst han
    obtain ⟨f, rfl⟩ : ∃ f, fuel = f + 1 := ⟨fuel - 1, by omega⟩
    simp [sendLoop, pureJob, hK, retryBlocks, hKn]
  | succ m ih =>
    intro a fuel ham hfuel hfail
    have haK : a < K := by omega
    obtain ⟨f, rfl⟩ : ∃ f, fuel = f + 1 := ⟨fuel - 1, by omega⟩
    obtain ⟨ea, hea⟩ : ∃ x, job a = some x := by
      cases hja : job a with
      | none => exact absurd hja (hfail a le_rfl haK)
      | some x => exact ⟨x, rfl⟩
    have hrec := ih (a + 1) f (by omega) (by omega)
      (fun k hk1 hk2 => hfail k (by omega) hk2)
    have han : a ≤ n := by omega
    have haltn : a < n := by omega
    simp [sendLoop, pureJob, hea, han, haltn, retryBlocks, hrec]

theorem notices_cons_invoke (k : Nat) (t : List SchedEv) :
    notices (SchedEv.invoke k :: t) = notices t := by
  simp [notices, List.filterMap_cons]

theorem notices_cons_sleep (d : Nat) (t : List SchedEv) :
    notices (SchedEv.sleepRetry d :: t) = notices t := by
  simp [notices, List.filterMap_cons]

theorem notices_sent_map (l : List String) :
    notices (l.map SchedEv.sent) = [] := by
  induction l with
  | nil => rfl
  | cons x l ih => simp [notices, List.filterMap_cons] at ih ⊢

/-- A failure message appears in the loop's trace only if every attempt
from `a` through `maxAttempts` raised. -/
theorem sendLoop_notices_exhaustion
    (jb : Nat → List String × Option String) (d n : Nat) :
    ∀ (fuel a : Nat), notices (sendLoop jb d n fuel a) ≠ [] →
      ∀ k, a ≤ k → k ≤ n → (jb k).2 ≠ none := by
  intro fuel
  induction fuel with
  | zero =>
    intro a hne
    exact absurd rfl hne
  | succ f ih =>
    intro a hne k hk1 hk2
    by_cases ha : a ≤ n
    · rw [show sendLoop jb d n (f + 1) a =
          if a ≤ n then
            SchedEv.invoke a :: (jb a).1.map SchedEv.sent ++
              (match (jb a).2 with
               | none => []
               | some e =>
                 if a < n then
                   SchedEv.sleepRetry d :: sendLoop jb d n f (a + 1)
                 else [SchedEv.notify (failNotice n e)])
            else [] from rfl, if_pos ha] at hne
      cases hres : (jb a).2 with
      | none =>
        rw [hres] at hne
        simp [notices, List.filterMap_append, List.filterMap_map,
          Function.comp] at hne
      | some e =>
        rw [hres] at hne
        by_cases hak : k = a
        · subst hak
          simp [hres]
        · have hka : a + 1 ≤ k := by omega
          by_cases hlt : a < n
          · have hne2 : notices (SchedEv.invoke a ::
                ((jb a).1.map SchedEv.sent ++
                  (if a < n then
                    SchedEv.sleepRetry d :: sendLoop jb d n f (a + 1)
                  else [SchedEv.notify (failNotice n e)]))) ≠ [] := hne
            rw [if_pos hlt, notices_cons_invoke, notices_append,
              notices_sent_map, List.nil_append, notices_cons_sleep]
              at hne2
            exact ih (a + 1) hne2 k hka hk2
          · omega
    · rw [show sendLoop jb d n (f + 1) a =
          if a ≤ n then
            SchedEv.invoke a :: (jb a).1.map SchedEv.sent ++
              (match (jb a).2 with
               | none => []
               | some e =>
                 if a < n then
                   SchedEv.sleepRetry d :: sendLoop jb d n f (a + 1)
                 else [SchedEv.notify (failNotice n e)])
            else [] from rfl, if_neg ha] at hne
      exact absurd rfl hne

/-! Claims C2 and C3 on the retry loop. -/

/-- Claim C2: for `retryAttempts = n ≥ 1` and any job, one firing of
`_send_scheduled_message`: a job that raises on every attempt is invoked
exactly `n` times with one `retry_delay` sleep between consecutive
attempts, after which exactly one failure message — carrying the attempt
count and the last error — is sent; a job whose first success is attempt
`K ≤ n` is invoked exactly `K` times and no failure message is sent. -/
theorem c2_retry_semantics (job : Nat → Option String) (n d : Nat)
    (hn : 1 ≤ n) :
    ((∀ k, 1 ≤ k → k ≤ n → job k ≠ none) →
      ∃ e, job n = some e ∧
        send_scheduled_message (pureJob job) n d =
          retryBlocks d 1 (n - 1) ++
            [SchedEv.invoke n, SchedEv.notify (failNotice n e)] ∧
        invokeCount (send_scheduled_message (pureJob job) n d) = n ∧
        retrySleepList (send_scheduled_message (pureJob job) n d) =
          List.replicate (n - 1) d ∧
        notices (send_scheduled_message (pureJob job) n d) =
          [failNotice n e]) ∧
    (∀ K, 1 ≤ K → K ≤ n → job K = none →
      (∀ k, 1 ≤ k → k < K → job k ≠ none) →
        send_scheduled_message (pureJob job) n d =
          retryBlocks d 1 (K - 1) ++ [SchedEv.invoke K] ∧
        invokeCount (send_scheduled_message (pureJob job) n d) = K ∧
        notices (send_scheduled_message (pureJob job) n d) = []) := by
  constructor
  · intro hfail
    obtain ⟨e, he⟩ : ∃ x, job n = some x := by
      cases hjn : job n with
      | none => exact absurd hjn (hfail n hn le_rfl)
      | some x => exact ⟨x, rfl⟩
    have htr : send_scheduled_message (pureJob job) n d =
        retryBlocks d 1 (n - 1) ++
          [SchedEv.invoke n, SchedEv.notify (failNotice n e)] :=
      sendLoop_all_fail job d n e he (n - 1) 1 n le_rfl (by omega)
        (by omega) (fun k hk1 hk2 => hfail k hk1 hk2)
    refine ⟨e, he, htr, ?_, ?_, ?_⟩
    · rw [htr, invokeCount_append, retryBlocks_invokeCount]
      simp [invokeCount]
      omega
    · rw [htr, retrySleepList_append, retryBlocks_sleeps]
      simp [retrySleepList]
    · rw [htr, notices_append, retryBlocks_notices]
      simp [notices]
  · intro K hK1 hKn hKs hfail
    have htr : send_scheduled_message (pureJob job) n d =
        retryBlocks d 1 (K - 1) ++ [SchedEv.invoke K] :=
      sendLoop_first_success job d n K hKn hKs (K - 1) 1 n (by omega)
        (by omega) (fun k hk1 hk2 => hfail k hk1 hk2)
    refine ⟨htr, ?_, ?_⟩
    · rw [htr, invokeCount_append, retryBlocks_invokeCount]
      simp [invokeCount]
      omega
    · rw [htr, notices_append, retryBlocks_notices]
      simp [notices]

/-- Claim C2 witness: an always-failing job under `retryAttempts = 3`,
`retry_delay = 7` is invoked three times, sleeps twice and sends one
failure message; a job succeeding on attempt 2 is invoked twice and sends
none. -/
theorem c2_retry_semantics_witness :
    invokeCount (send_scheduled_message
        (pureJob (fun _ => some "boom")) 3 7) = 3 ∧
    retrySleepList (send_scheduled_message
        (pureJob (fun _ => some "boom")) 3 7) = [7, 7] ∧
    notices (send_scheduled_message (pureJob (fun _ => some "boom")) 3 7) =
      [failNotice 3 "boom"] ∧
    invokeCount (send_scheduled_message
        (pureJob (fun k => if k == 2 then none else some "x")) 3 7) = 2 ∧
    notices (send_scheduled_message
        (pureJob (fun k => if k == 2 then none else some "x")) 3 7) =
      [] := by
  have h1 := (c2_retry_semantics (fun _ => some "boom") 3 7
    (by decide)).1 (fun k _ _ hc => by simp at hc)
  have h2 := (c2_retry_semantics (fun k => if k == 2 then none else some "x")
    3 7 (by decide)).2 2 (by decide) (by decide) (by decide)
    (fun k hk1 hk2 => by
      have : k = 1 := by omega
      subst this
      simp)
  obtain ⟨e, he, -, hc, hs, hnot⟩ := h1
  have he' : e = "boom" := by
    have := he.symm
    simpa using this
  subst he'
  refine ⟨hc, by simpa using hs, hnot, h2.2.1, h2.2.2⟩

/-- Claim C3 counterexample.  Wire the scheduler's retry loop to the real
daily job `send_daily_message` with `retryAttempts = 3` and let the job's
internal send fail on the first attempt (`sendOk = false`) while the
channel accepts its error notification (`errSendOk = true`): the firing
performs only one invocation — so two configured attempts remain untried —
yet an outbound failure message is sent.  This contradicts the claim that
a failing attempt with further attempts remaining produces no outbound
message and that a failure message is sent only after all attempts are
exhausted. -/
theorem c3_transient_failure_counterexample :
    invokeCount (send_scheduled_message
        (fun _ => send_daily_message "hello" false true "boom") 3 0) = 1 ∧
    outbound (send_scheduled_message
        (fun _ => send_daily_message "hello" false true "boom") 3 0) =
      ["❌ Failed to send scheduled message: boom"] ∧
    notices (send_scheduled_message
        (fun _ => send_daily_message "hello" false true "boom") 3 0) =
      [] := by
  refine ⟨by decide, by decide, by decide⟩

/-- Claim C3, amended: the scheduler's retry loop itself surfaces a
failure message only after every attempt up to `retryAttempts` has raised
(transient loop-level failures produce no scheduler notification).  But
the daily-message job `send_daily_message` catches all its own errors and
never raises, so the loop always stops after one invocation of it; and
when the job's internal send fails while the channel accepts the error
message, the job itself sends an outbound failure message immediately, on
that first attempt. -/
theorem c3_transient_failures_amended :
    (∀ (jb : Nat → List String × Option String) (n d : Nat),
      notices (send_scheduled_message jb n d) ≠ [] →
      ∀ k, 1 ≤ k → k ≤ n → (jb k).2 ≠ none) ∧
    (∀ (msg e : String) (sendOk errSendOk : Bool),
      (send_daily_message msg sendOk errSendOk e).2 = none) ∧
    (∀ (msg e : String) (sendOk errSendOk : Bool) (n d : Nat), 1 ≤ n →
      send_scheduled_message
          (fun _ => send_daily_message msg sendOk errSendOk e) n d =
        SchedEv.invoke 1 ::
          (send_daily_message msg sendOk errSendOk e).1.map SchedEv.sent) ∧
    (∀ (msg e : String) (n d : Nat), 1 ≤ n →
      outbound (send_scheduled_message
          (fun _ => send_daily_message msg false true e) n d) =
        ["❌ Failed to send scheduled message: " ++ e]) := by
  have hnoraise : ∀ (msg e : String) (sendOk errSendOk : Bool),
      (send_daily_message msg sendOk errSendOk e).2 = none := by
    intro msg e sendOk errSendOk
    cases sendOk <;> cases errSendOk <;> rfl
  have hsingle : ∀ (msg e : String) (sendOk errSendOk : Bool) (n d : Nat),
      1 ≤ n →
      send_scheduled_message
          (fun _ => send_daily_message msg sendOk errSendOk e) n d =
        SchedEv.invoke 1 ::
          (send_daily_message msg sendOk errSendOk e).1.map
            SchedEv.sent := by
    intro msg e sendOk errSendOk n d hn
    obtain ⟨f, rfl⟩ : ∃ f, n = f + 1 := ⟨n - 1, by omega⟩
    show sendLoop _ d (f + 1) (f + 1) 1 = _
    rw [show sendLoop (fun _ => send_daily_message msg sendOk errSendOk e)
        d (f + 1) (f + 1) 1 =
      if 1 ≤ f + 1 then
        SchedEv.invoke 1 ::
          (send_daily_message msg sendOk errSendOk e).1.map SchedEv.sent ++
          (match (send_daily_message msg sendOk errSendOk e).2 with
           | none => []
           | some err =>
             if 1 < f + 1 then
               SchedEv.sleepRetry d ::
                 sendLoop (fun _ => send_daily_message msg sendOk errSendOk e)
                   d (f + 1) f 2
             else [SchedEv.notify (failNotice (f + 1) err)])
      else [] from rfl]
    rw [hnoraise msg e sendOk errSendOk]
    simp
  refine ⟨?_, hnoraise, hsingle, ?_⟩
  · intro jb n d hne k hk1 hk2
    exact sendLoop_notices_exhaustion jb d n n 1 hne k hk1 hk2
  · intro msg e n d hn
    rw [hsingle msg e false true n d hn]
    simp [send_daily_message, outbound, List.filterMap_cons,
      List.filterMap_map]

/-- Claim C3 amended witness: concrete firing with `retryAttempts = 3`
whose first job attempt fails internally — a single invocation and an
immediate outbound error message. -/
theorem c3_transient_failures_amended_witness :
    send_scheduled_message
        (fun _ => send_daily_message "hi" false true "down") 3 5 =
      SchedEv.invoke 1 ::
        (send_daily_message "hi" false true "down").1.map SchedEv.sent ∧
    outbound (send_scheduled_message
        (fun _ => send_daily_message "hi" false true "down") 3 5) =
      ["❌ Failed to send scheduled message: down"] :=
  ⟨c3_transient_failures_amended.2.2.1 "hi" "down" false true 3 5
      (by decide),
    c3_transient_failures_amended.2.2.2 "hi" "down" 3 5 (by decide)⟩

/-! Claim C5 on the classifier. -/

/-- Claim C5: `is_habit_message` returns true exactly when some trigger
phrase of the language's pattern list — which is the hard-coded English
list for every language other than `"arabic"`, so unknown languages fall
back to English — is a substring of the lower-cased text; and the two
concrete examples of the specification hold. -/
theorem c5_classifier (lm : LanguageManager) :
    (∀ (text language : String),
      is_habit_message lm text language = true ↔
        ∃ p ∈ get_habit_patterns lm language,
          occursIn p.toList (lowerStr text.toList) = true) ∧
    (∀ language : String, language ≠ "arabic" →
      get_habit_patterns lm language = englishPatterns) ∧
    is_habit_message lm "I totally DID IT today" "english" = true ∧
    is_habit_message lm "nothing happened" "english" = false := by
  refine ⟨?_, ?_, ?_, ?_⟩
  · intro text language
    simp [is_habit_message, List.any_eq_true]
  · intro language hlang
    simp [get_habit_patterns, hlang]
  · rfl
  · rfl

/-- Claim C5 witness: the fallback and the two examples at a concrete
`LanguageManager` state with no bundles loaded. -/
theorem c5_classifier_witness :
    get_habit_patterns ⟨fun _ => none⟩ "french" = englishPatterns ∧
    is_habit_message ⟨fun _ => none⟩ "I totally DID IT today" "english" =
      true ∧
    is_habit_message ⟨fun _ => none⟩ "nothing happened" "english" =
      false :=
  ⟨(c5_classifier ⟨fun _ => none⟩).2.1 "french" (by decide),
   (c5_classifier ⟨fun _ => none⟩).2.2.1,
   (c5_classifier ⟨fun _ => none⟩).2.2.2⟩

/-! Claims C4 and C10 on `get_next_run_time`. -/

theorem begMatch_append (l r : List Char) : begMatch l (l ++ r) = true := by
  induction l with
  | nil => rfl
  | cons c l ih => simp [begMatch, ih]

/-- Every error string produced by `get_next_run_time` starts with
`errHead`. -/
theorem begMatch_errHead (tail : String) :
    begMatch errHead.toList ((errHead ++ tail).toList) = true := by
  have h : (errHead ++ tail).toList = errHead.toList ++ tail.toList := by
    simp [String.toList, String.data_append]
  rw [h]
  exact begMatch_append errHead.toList tail.toList

/-- Claim C4: for a fire time that parses as a valid `HH:MM` and a
timezone in which "now" can be read, `get_next_run_time` returns a
timestamp strictly after "now" whose time of day is the fire time, on the
same day when today's occurrence is still in the future and on the next
day when "now" equals or has passed it. -/
theorem c4_next_run_strictly_future (nowUTC : WallTime)
    (tzdb : String → Option Int) (st tz : String) (h m : Nat)
    (now : WallTime)
    (hparse : parseHM st.toList = some ((h : Int), (m : Int)))
    (hh : h ≤ 23) (hm2 : m ≤ 59)
    (hnow : nowInZone nowUTC tzdb tz = some now)
    (hsec : now.sec < 86400) :
    get_next_run_time nowUTC tzdb st tz =
      RunResult.ok (computeNext h m now) ∧
    wallAbs now < wallAbs (computeNext h m now) ∧
    (computeNext h m now).sec = h * 3600 + m * 60 ∧
    (now.sec < h * 3600 + m * 60 → (computeNext h m now).day = now.day) ∧
    (h * 3600 + m * 60 ≤ now.sec →
      (computeNext h m now).day = now.day + 1) := by
  have hcond : (0 : Int) ≤ (h : Int) ∧ (h : Int) ≤ 23 ∧
      (0 : Int) ≤ (m : Int) ∧ (m : Int) ≤ 59 :=
    ⟨Int.natCast_nonneg h, by exact_mod_cast hh,
     Int.natCast_nonneg m, by exact_mod_cast hm2⟩
  have hparse2 : parseHM st.data = some ((h : Int), (m : Int)) := hparse
  refine ⟨?_, ?_, ?_, ?_, ?_⟩
  · simp [get_next_run_time, hparse2, hnow, hcond]
  · by_cases hfs : h * 3600 + m * 60 ≤ now.sec
    · simp only [computeNext, if_pos hfs, wallAbs]
      push_cast
      omega
    · simp only [computeNext, if_neg hfs, wallAbs]
      push_cast
      omega
  · by_cases hfs : h * 3600 + m * 60 ≤ now.sec <;>
      simp [computeNext, hfs]
  · intro hlt
    have hfs : ¬(h * 3600 + m * 60 ≤ now.sec) := by omega
    simp [computeNext, hfs]
  · intro hge
    simp [computeNext, hge]

/-- Claim C4 witness: the specification's example — fire time `09:00`,
now `10:00 UTC` on day 0 — yields day 1 at `09:00:00`, strictly in the
future. -/
theorem c4_next_run_strictly_future_witness :
    get_next_run_time ⟨0, 36000⟩ (fun _ => none) "09:00" "UTC" =
      RunResult.ok (computeNext 9 0 ⟨0, 36000⟩) ∧
    computeNext 9 0 ⟨0, 36000⟩ = ⟨1, 32400⟩ ∧
    wallAbs ⟨0, 36000⟩ < wallAbs (computeNext 9 0 ⟨0, 36000⟩) :=
  have h := c4_next_run_strictly_future ⟨0, 36000⟩ (fun _ => none)
    "09:00" "UTC" 9 0 ⟨0, 36000⟩ (by decide) (by decide) (by decide)
    (by decide) (by decide)
  ⟨h.1, by decide, h.2.1⟩

/-- Claim C10: `get_next_run_time` is total — it always returns either a
computed timestamp or an `errHead`-prefixed error string — and on an
unparsable fire time or an unknown (non-UTC) timezone name, it returns an
error string beginning with `"Error calculating next run time: "`. -/
theorem c10_next_run_total (nowUTC : WallTime)
    (tzdb : String → Option Int) (st tz : String) :
    ((∃ t, get_next_run_time nowUTC tzdb st tz = RunResult.ok t) ∨
     (∃ s, get_next_run_time nowUTC tzdb st tz = RunResult.err s ∧
        begMatch errHead.toList s.toList = true)) ∧
    ((parseHM st.toList = none ∨ (tz ≠ "UTC" ∧ tzdb tz = none)) →
      ∃ s, get_next_run_time nowUTC tzdb st tz = RunResult.err s ∧
        begMatch errHead.toList s.toList = true) := by
  constructor
  · cases hp : parseHM st.data with
    | none =>
      right
      refine ⟨errHead ++ "invalid literal for int() with base 10", ?_,
        begMatch_errHead _⟩
      simp [get_next_run_time, hp]
    | some hmp =>
      cases hz : nowInZone nowUTC tzdb tz with
      | none =>
        right
        refine ⟨errHead ++ ("unknown timezone " ++ tz), ?_,
          begMatch_errHead _⟩
        simp [get_next_run_time, hp, hz]
      | some now =>
        by_cases hcond : (0 : Int) ≤ hmp.1 ∧ hmp.1 ≤ 23 ∧
            (0 : Int) ≤ hmp.2 ∧ hmp.2 ≤ 59
        · left
          refine ⟨computeNext hmp.1.toNat hmp.2.toNat now, ?_⟩
          simp [get_next_run_time, hp, hz, hcond]
        · right
          refine ⟨errHead ++ "hour or minute out of range", ?_,
            begMatch_errHead _⟩
          simp [get_next_run_time, hp, hz, hcond]
  · intro hbad
    cases hp : parseHM st.data with
    | none =>
      refine ⟨errHead ++ "invalid literal for int() with base 10", ?_,
        begMatch_errHead _⟩
      simp [get_next_run_time, hp]
    | some hmp =>
      have htz : tz ≠ "UTC" ∧ tzdb tz = none := by
        rcases hbad with hbad | hbad
        · have hp2 : parseHM st.data = none := hbad
          rw [hp2] at hp
          cases hp
        · exact hbad
      have hz : nowInZone nowUTC tzdb tz = none := by
        simp [nowInZone, htz.1, htz.2]
      refine ⟨errHead ++ ("unknown timezone " ++ tz), ?_,
        begMatch_errHead _⟩
      simp [get_next_run_time, hp, hz]

/-- Claim C10 witness: an unparsable fire time yields the
`errHead`-prefixed error string. -/
theorem c10_next_run_total_witness :
    get_next_run_time ⟨0, 0⟩ (fun _ => none) "oops" "UTC" =
      RunResult.err
        (errHead ++ "invalid literal for int() with base 10") ∧
    begMatch errHead.toList
      ((errHead ++ "invalid literal for int() with base 10").toList) =
        true := by
  obtain ⟨s, hs, hb⟩ :=
    (c10_next_run_total ⟨0, 0⟩ (fun _ => none) "oops" "UTC").2
      (Or.inl (by decide))
  have hval : get_next_run_time ⟨0, 0⟩ (fun _ => none) "oops" "UTC" =
      RunResult.err
        (errHead ++ "invalid literal for int() with base 10") := by
    decide
  have hseq : s = errHead ++ "invalid literal for int() with base 10" := by
    rw [hval] at hs
    injection hs with h
    exact h.symm
  subst hseq
  exact ⟨hval, hb⟩

end Tb
